import Mathlib

/-!
MessageQueue: the five system calls of `fifo.c`

A shallow embedding of `src/fifo.c`: the kernel-side FIFO of messages
(`queueHead421`), its element counter (`numElements421`) and the semaphore
that guards them (`queueLock421`), together with the system calls
`sys_enqueue421`, `sys_dequeue421`, `sys_peekLen421`, `sys_queueLen421` and
`sys_clearQueue421`.

Calls are run one after another (no call starts before the previous one has
returned).  User memory, the range check `access_ok` and the allocator
`kmalloc` belong to the kernel, not to the repository; their outcomes are
inputs of the calls.
-/

namespace MessageQueue

/-- One byte of memory (`char`). -/
abbrev Byte := UInt8

/-- User memory starting at the pointer a caller passes: one cell per byte,
`some b` for a byte that can be accessed and currently holds `b`, `none` for a
byte whose access faults.  Bytes past the end of the list fault as well. -/
abbrev UserMem := List (Option Byte)

/-- The constant `MAX_SIZE` (fifo.c line 10). -/
def MAX_SIZE : Int := 512

/-- Modelled from the spec: `EINVAL` comes from `<linux/errno.h>`, which is not
part of the repository; it reports the spec's kind InvalidArgument and has the
Linux value 22. -/
def EINVAL : Int := 22

/-- Modelled from the spec: `E2BIG` comes from `<linux/errno.h>`, which is not
part of the repository; the source uses it for the spec's kinds TooLarge and
TooBig; Linux value 7. -/
def E2BIG : Int := 7

/-- Modelled from the spec: `EFAULT` comes from `<linux/errno.h>`, which is not
part of the repository; it reports the spec's kind BadAddress; Linux value 14. -/
def EFAULT : Int := 14

/-- Modelled from the spec: `ENOMEM` comes from `<linux/errno.h>`, which is not
part of the repository; it reports the spec's kind OutOfMemory; Linux value 12. -/
def ENOMEM : Int := 12

/-- Modelled from the spec: `ENODATA` comes from `<linux/errno.h>`, which is not
part of the repository; it reports the spec's kind NoData; Linux value 61. -/
def ENODATA : Int := 61

/-- The `struct message` of fifo.c lines 12-16: the array `data` and the field
`length`.  The `list` member is the position of the message in the queue and is
carried by the list that holds the messages. -/
structure message where
  data : List Byte
  length : Int
  deriving DecidableEq, Repr

/-- The three globals of fifo.c lines 19-21: the count of the semaphore
`queueLock421` (1 = free, 0 = held), the messages linked on `queueHead421` from
head to tail, and the counter `numElements421`.  The counter is a C `int`; it
is kept as a mathematical integer (it moves by one per call and would need 2^31
queued messages to wrap). -/
structure State where
  queueLock421 : Nat
  queueHead421 : List message
  numElements421 : Int
  deriving DecidableEq, Repr

/-- The globals as initialised at lines 19-21: `DEFINE_SEMAPHORE` gives the
count 1, `LIST_HEAD` the empty list, and the counter is 0. -/
def State.init : State := ⟨1, [], 0⟩

/-- How a call ends.  `returned a`: the call returns.  `blocked`: the call
sleeps in `down` on a semaphore whose count is 0; no other call is running that
could raise it, so the call never returns.  `undefined`: the call dereferences the
list head of an empty list as if it were a message (undefined behaviour). -/
inductive Outcome (α : Type) where
  | returned : α → Outcome α
  | blocked : Outcome α
  | undefined : Outcome α
  deriving DecidableEq, Repr

/-- Sequencing of outcomes: the rest of the call runs only if the first part
returned. -/
def Outcome.bind {α β : Type} : Outcome α → (α → Outcome β) → Outcome β
  | .returned a, f => f a
  | .blocked, _ => .blocked
  | .undefined, _ => .undefined

/-- Modelled from the spec: the kernel's `down(&queueLock421)` is not part of
the repository.  It takes the semaphore when its count is positive and sleeps
otherwise. -/
def down (s : State) : Outcome State :=
  if s.queueLock421 = 0 then .blocked
  else .returned { s with queueLock421 := s.queueLock421 - 1 }

/-- Modelled from the spec: the kernel's `up(&queueLock421)` is not part of the
repository.  It raises the count of the semaphore by one. -/
def up (s : State) : State :=
  { s with queueLock421 := s.queueLock421 + 1 }

/-- Conversion of a `long` to the `unsigned long` byte count that
`copy_from_user` and `copy_to_user` take. -/
def toULong (n : Int) : Nat := (n % 2 ^ 64).toNat

/-- Conversion of a `long` to `int` (the assignment `length = tmp->length` at
line 163), widened again on return. -/
def toInt (n : Int) : Int := (n + 2 ^ 31) % 2 ^ 32 - 2 ^ 31

/-- Modelled from the spec: the kernel's `copy_from_user(to, from, n)` is not
part of the repository.  It reads bytes of user memory in order until `n` bytes
are read or an access faults, and returns the bytes read together with the
number of bytes that could not be copied (0 when the whole copy succeeded). -/
def copy_from_user : UserMem → Nat → List Byte × Nat
  | _, 0 => ([], 0)
  | some b :: src, n + 1 =>
    let r := copy_from_user src n
    (b :: r.1, r.2)
  | _, n + 1 => ([], n + 1)

/-- Modelled from the spec: the kernel's `copy_to_user(to, from, n)` is not
part of the repository.  It writes the bytes of `from` over user memory in
order until `n` bytes are written or an access faults, and returns the user
memory afterwards together with the number of bytes that could not be copied
(0 when the whole copy succeeded).  Reading past the end of the kernel buffer
`from` counts as a fault; it does not arise for the 512-byte array of a
message and a count of at most 512. -/
def copy_to_user : UserMem → List Byte → Nat → UserMem × Nat
  | dst, _, 0 => (dst, 0)
  | some _ :: dst, b :: src, n + 1 =>
    let r := copy_to_user dst src n
    (some b :: r.1, r.2)
  | dst, _, n + 1 => (dst, n + 1)

/-- The system call `sys_enqueue421(data, len)` (fifo.c lines 33-71).

`data` is the user memory at the pointer, `accessOk` the result of
`access_ok(VERIFY_READ, data, len)`, and `kmalloc` the result of the
allocation: `none` for NULL, `some block` for a fresh message whose `data`
array holds the indeterminate bytes `block`.  The result is the returned value
and the globals afterwards. -/
def sys_enqueue421 (s : State) (data : UserMem) (len : Int) (accessOk : Bool)
    (kmalloc : Option (List Byte)) : Outcome (Int × State) :=
  if len < 0 then .returned (-EINVAL, s)
  else if len > MAX_SIZE then .returned (-E2BIG, s)
  else if !accessOk then .returned (-EFAULT, s)
  else
    match kmalloc with
    | none => .returned (-ENOMEM, s)
    | some block =>
      let copied := copy_from_user data (toULong len)
      let newMsg : message := ⟨copied.1 ++ block.drop copied.1.length, len⟩
      let error := copied.2
      if error ≠ 0 then .returned (-EFAULT, s)
      else
        (down s).bind fun s1 =>
          let s2 : State :=
            { s1 with
              queueHead421 := s1.queueHead421 ++ [newMsg]
              numElements421 := s1.numElements421 + 1 }
          .returned (0, up s2)

/-- What a call of `sys_dequeue421` leaves behind: the returned value, the
globals, and the user memory at the destination pointer. -/
structure DequeueResult where
  ret : Int
  state : State
  data : UserMem
  deriving DecidableEq, Repr

/-- Lines 94-112 of `sys_dequeue421`: the first critical section (emptiness
check) and the checks of the arguments.  `Sum.inl r`: the call returns `r`
here.  `Sum.inr s1`: the call goes on to the second critical section with the
globals `s1`. -/
def sys_dequeue421_check (s : State) (data : UserMem) (len : Int)
    (accessOk : Bool) : Outcome (DequeueResult ⊕ State) :=
  (down s).bind fun s1 =>
    match s1.queueHead421 with
    | [] => .returned (.inl ⟨-ENODATA, up s1, data⟩)
    | _ :: _ =>
      let s2 := up s1
      if !accessOk then .returned (.inl ⟨-EFAULT, s2, data⟩)
      else if len < 0 then .returned (.inl ⟨-EINVAL, s2, data⟩)
      else if len > MAX_SIZE then .returned (.inl ⟨-E2BIG, s2, data⟩)
      else .returned (.inr s2)

/-- Lines 116-141 of `sys_dequeue421`: the second critical section.  The head
of the list is read without a test for emptiness (line 118); the return at
line 121 leaves the semaphore held. -/
def sys_dequeue421_take (s : State) (data : UserMem) (len : Int) :
    Outcome DequeueResult :=
  (down s).bind fun s1 =>
    match s1.queueHead421 with
    | [] => .undefined
    | tmp :: rest =>
      if tmp.length > len then .returned ⟨-E2BIG, s1, data⟩
      else
        let uBound := if tmp.length < len then tmp.length else len
        let copied := copy_to_user data tmp.data (toULong uBound)
        let error := copied.2
        if error ≠ 0 then .returned ⟨-EFAULT, up s1, copied.1⟩
        else
          let s2 : State :=
            { s1 with
              queueHead421 := rest
              numElements421 := s1.numElements421 - 1 }
          .returned ⟨0, up s2, copied.1⟩

/-- The system call `sys_dequeue421(data, len)` (fifo.c lines 88-142).

`data` is the user memory at the destination pointer and `accessOk` the result
of `access_ok(VERIFY_WRITE, data, len)`. -/
def sys_dequeue421 (s : State) (data : UserMem) (len : Int) (accessOk : Bool) :
    Outcome DequeueResult :=
  (sys_dequeue421_check s data len accessOk).bind fun r =>
    match r with
    | .inl res => .returned res
    | .inr s1 => sys_dequeue421_take s1 data len

/-- The system call `sys_peekLen421()` (fifo.c lines 151-168). -/
def sys_peekLen421 (s : State) : Outcome (Int × State) :=
  (down s).bind fun s1 =>
    match s1.queueHead421 with
    | [] => .returned (-ENODATA, up s1)
    | tmp :: _ =>
      let length := toInt tmp.length
      .returned (length, up s1)

/-- The system call `sys_queueLen421()` (fifo.c lines 175-177); it reads the
counter without taking the semaphore. -/
def sys_queueLen421 (s : State) : Int := s.numElements421

/-- The loop of lines 195-200: every message on the list is unlinked and
freed, and the counter is lowered by one for each. -/
def clearLoop : List message → Int → List message × Int
  | [], n => ([], n)
  | _ :: rest, n => clearLoop rest (n - 1)

/-- The system call `sys_clearQueue421()` (fifo.c lines 184-205). -/
def sys_clearQueue421 (s : State) : Outcome (Int × State) :=
  (down s).bind fun s1 =>
    match s1.queueHead421 with
    | [] => .returned (0, up s1)
    | _ :: _ =>
      let r := clearLoop s1.queueHead421 s1.numElements421
      let s2 : State := { s1 with queueHead421 := r.1, numElements421 := r.2 }
      .returned (0, up s2)

/-! ## Callers and conditions used to state the properties -/

/-- The first `n` bytes of user memory can all be accessed. -/
def accessible : UserMem → Nat → Bool
  | _, 0 => true
  | some _ :: m, n + 1 => accessible m n
  | _, _ + 1 => false

/-- The payload `p` is what a reader finds at the start of the user memory
`m`: the first `p.length` bytes can be accessed and hold `p`. -/
def holds (m : UserMem) (p : List Byte) : Prop := m.take p.length = p.map some

instance (m : UserMem) (p : List Byte) : Decidable (holds m p) := by
  unfold holds; infer_instance

/-- The arguments of one call of `sys_enqueue421`, with the outcomes of
`access_ok` and `kmalloc` for that call. -/
structure EnqueueCall where
  data : UserMem
  len : Int
  accessOk : Bool
  kmalloc : Option (List Byte)

/-- The arguments of one call of `sys_dequeue421`, with the outcome of
`access_ok` for that call. -/
structure DequeueCall where
  data : UserMem
  len : Int
  accessOk : Bool

/-- A caller that issues the given calls of `sys_enqueue421` one after
another; the result lists the returned values in order. -/
def enqueueAll : State → List EnqueueCall → Outcome (List Int × State)
  | s, [] => .returned ([], s)
  | s, c :: cs =>
    (sys_enqueue421 s c.data c.len c.accessOk c.kmalloc).bind fun r =>
      (enqueueAll r.2 cs).bind fun rs => .returned (r.1 :: rs.1, rs.2)

/-- A caller that issues the given calls of `sys_dequeue421` one after
another; the result lists, in order, each returned value with the destination
memory the call left behind. -/
def dequeueAll :
    State → List DequeueCall → Outcome (List (Int × UserMem) × State)
  | s, [] => .returned ([], s)
  | s, c :: cs =>
    (sys_dequeue421 s c.data c.len c.accessOk).bind fun r =>
      (dequeueAll r.state cs).bind fun rs =>
        .returned ((r.ret, r.data) :: rs.1, rs.2)

/-- A valid append of the payload `p`: the length passed is the payload's and
at most 512, `access_ok` passes, the allocation succeeds, and the source holds
the payload (so the copy succeeds). -/
def ValidAppend (p : List Byte) (c : EnqueueCall) : Prop :=
  c.len = p.length ∧ p.length ≤ 512 ∧ c.accessOk = true ∧
    c.kmalloc.isSome = true ∧ holds c.data p

/-- A removal fit to receive the payload `p`: `access_ok` passes, the capacity
`len` is at least the payload's length and at most 512, and the first
`p.length` bytes of the destination are writable. -/
def ValidRemove (p : List Byte) (c : DequeueCall) : Prop :=
  c.accessOk = true ∧ (p.length : Int) ≤ c.len ∧ c.len ≤ 512 ∧
    accessible c.data p.length = true

/-- The message `m` stores the payload `p`. -/
def Stores (p : List Byte) (m : message) : Prop :=
  m.length = p.length ∧ m.data.take p.length = p

instance (p : List Byte) (c : EnqueueCall) : Decidable (ValidAppend p c) := by
  unfold ValidAppend; infer_instance

instance (p : List Byte) (c : DequeueCall) : Decidable (ValidRemove p c) := by
  unfold ValidRemove; infer_instance

/-- One call of the service by a caller: the system call with its arguments
and with the outcomes of `access_ok` and `kmalloc` for that call. -/
inductive Call where
  | enqueue (data : UserMem) (len : Int) (accessOk : Bool)
      (kmalloc : Option (List Byte))
  | dequeue (data : UserMem) (len : Int) (accessOk : Bool)
  | peekLen
  | queueLen
  | clearQueue

/-- The returned value and the globals after one call. -/
def Call.run (c : Call) (s : State) : Outcome (Int × State) :=
  match c with
  | .enqueue data len accessOk kmalloc => sys_enqueue421 s data len accessOk kmalloc
  | .dequeue data len accessOk =>
    (sys_dequeue421 s data len accessOk).bind fun r => .returned (r.ret, r.state)
  | .peekLen => sys_peekLen421 s
  | .queueLen => .returned (sys_queueLen421 s, s)
  | .clearQueue => sys_clearQueue421 s

/-- The globals after a sequence of calls, each started when the previous one
has returned. -/
def runCalls : State → List Call → Outcome State
  | s, [] => .returned s
  | s, c :: cs => (c.run s).bind fun r => runCalls r.2 cs

/-- A call of `sys_dequeue421` by one caller during which another caller runs
one complete call `other`, between the `up` of line 101 (end of the first
critical section) and the `down` of line 117 (start of the second), where the
first caller does not hold the semaphore. -/
def sys_dequeue421_interleaved (s : State) (data : UserMem) (len : Int)
    (accessOk : Bool) (other : Call) : Outcome DequeueResult :=
  (sys_dequeue421_check s data len accessOk).bind fun r =>
    match r with
    | .inl res => .returned res
    | .inr s1 => (other.run s1).bind fun o => sys_dequeue421_take o.2 data len

/-! ## Auxiliary facts about the copy primitives -/

theorem toULong_eq (n : Int) (h0 : 0 ≤ n) (h1 : n ≤ 512) :
    toULong n = n.toNat := by
  unfold toULong
  rw [Int.emod_eq_of_lt h0 (by omega)]

theorem toULong_natCast (n : Nat) (h : n ≤ 512) : toULong (n : Int) = n := by
  rw [toULong_eq _ (by omega) (by omega)]; simp

theorem copy_from_user_ok (src : UserMem) (n : Nat)
    (h : (copy_from_user src n).2 = 0) :
    (copy_from_user src n).1.map some = src.take n ∧
      (copy_from_user src n).1.length = n := by
  induction n generalizing src with
  | zero => simp [copy_from_user]
  | succ k ih =>
    match src with
    | [] => simp [copy_from_user] at h
    | none :: _ => simp [copy_from_user] at h
    | some b :: rest =>
      simp only [copy_from_user] at h ⊢
      have := ih rest h
      simp [this.1, this.2]

theorem copy_from_user_payload (src : UserMem) (p : List Byte)
    (h : src.take p.length = p.map some) :
    copy_from_user src p.length = (p, 0) := by
  induction p generalizing src with
  | nil => simp [copy_from_user]
  | cons b p ih =>
    match src with
    | [] => simp at h
    | none :: _ => simp at h
    | some c :: rest =>
      simp only [List.length_cons, List.take_succ_cons, List.map_cons,
        List.cons.injEq, Option.some.injEq] at h
      simp [copy_from_user, ih rest h.2, h.1]

theorem copy_to_user_ok (dst : UserMem) (src : List Byte) (n : Nat)
    (h : (copy_to_user dst src n).2 = 0) :
    (copy_to_user dst src n).1 = (src.take n).map some ++ dst.drop n ∧
      n ≤ src.length ∧ accessible dst n = true := by
  induction n generalizing dst src with
  | zero => simp [copy_to_user, accessible]
  | succ k ih =>
    match dst, src with
    | [], _ => simp [copy_to_user] at h
    | none :: _, _ => simp [copy_to_user] at h
    | some _ :: _, [] => simp [copy_to_user] at h
    | some c :: dst, b :: src =>
      simp only [copy_to_user] at h ⊢
      have := ih dst src h
      simp [this.1, this.2.1, this.2.2, accessible]

theorem copy_to_user_accessible (dst : UserMem) (src : List Byte) (n : Nat)
    (hs : n ≤ src.length) (hd : accessible dst n = true) :
    copy_to_user dst src n = ((src.take n).map some ++ dst.drop n, 0) := by
  induction n generalizing dst src with
  | zero => simp [copy_to_user]
  | succ k ih =>
    match dst, src with
    | [], _ => simp [accessible] at hd
    | none :: _, _ => simp [accessible] at hd
    | some _ :: _, [] => simp at hs
    | some c :: dst, b :: src =>
      simp only [accessible] at hd
      simp only [List.length_cons, Nat.add_le_add_iff_right] at hs
      simp [copy_to_user, ih dst src hs hd]

/-! ## `sys_enqueue421` -/

/-- The precedence of the checks of `sys_enqueue421`: `len < 0` (-EINVAL),
`len > 512` (-E2BIG), failed `access_ok` (-EFAULT), failed `kmalloc` (-ENOMEM),
failed `copy_from_user` (-EFAULT), in this order; the five error returns leave
the globals as they were, whatever the state of the semaphore.  The success
return (0) is reached only when the semaphore is free at the call.  In
particular `len = -1` gives -EINVAL and `len = 513` gives -E2BIG for every
source region, access result and allocation result. -/
theorem sys_enqueue421_precedence (s : State) (data : UserMem) (len : Int)
    (accessOk : Bool) (kmalloc : Option (List Byte)) :
    (len < 0 →
      sys_enqueue421 s data len accessOk kmalloc = .returned (-EINVAL, s)) ∧
    (0 ≤ len → 512 < len →
      sys_enqueue421 s data len accessOk kmalloc = .returned (-E2BIG, s)) ∧
    (0 ≤ len → len ≤ 512 → accessOk = false →
      sys_enqueue421 s data len accessOk kmalloc = .returned (-EFAULT, s)) ∧
    (0 ≤ len → len ≤ 512 → accessOk = true → kmalloc = none →
      sys_enqueue421 s data len accessOk kmalloc = .returned (-ENOMEM, s)) ∧
    (0 ≤ len → len ≤ 512 → accessOk = true → kmalloc.isSome = true →
      (copy_from_user data (toULong len)).2 ≠ 0 →
      sys_enqueue421 s data len accessOk kmalloc = .returned (-EFAULT, s)) ∧
    (0 ≤ len → len ≤ 512 → accessOk = true → kmalloc.isSome = true →
      (copy_from_user data (toULong len)).2 = 0 → 0 < s.queueLock421 →
      ∃ s', sys_enqueue421 s data len accessOk kmalloc = .returned (0, s')) ∧
    sys_enqueue421 s data (-1) accessOk kmalloc = .returned (-EINVAL, s) ∧
    sys_enqueue421 s data 513 accessOk kmalloc = .returned (-E2BIG, s) := by
  refine ⟨?_, ?_, ?_, ?_, ?_, ?_, ?_, ?_⟩
  · intro h
    simp [sys_enqueue421, h]
  · intro h0 h1
    simp [sys_enqueue421, MAX_SIZE, not_lt.mpr h0, h1]
  · intro h0 h1 ha
    simp [sys_enqueue421, MAX_SIZE, not_lt.mpr h0, not_lt.mpr h1, ha]
  · intro h0 h1 ha hk
    simp [sys_enqueue421, MAX_SIZE, not_lt.mpr h0, not_lt.mpr h1, ha, hk]
  · intro h0 h1 ha hk hc
    obtain ⟨block, rfl⟩ := Option.isSome_iff_exists.mp hk
    simp [sys_enqueue421, MAX_SIZE, not_lt.mpr h0, not_lt.mpr h1, ha, hc]
  · intro h0 h1 ha hk hc hl
    obtain ⟨block, rfl⟩ := Option.isSome_iff_exists.mp hk
    have hl' : s.queueLock421 ≠ 0 := by omega
    simp [sys_enqueue421, MAX_SIZE, not_lt.mpr h0, not_lt.mpr h1, ha, hc,
      down, hl', Outcome.bind]
  · simp [sys_enqueue421]
  · simp [sys_enqueue421, MAX_SIZE]

/-- An instance of the precedence: a call with `len = 512`, a readable source
of 512 bytes and a successful allocation returns 0 on the initial state. -/
theorem sys_enqueue421_precedence_witness :
    ∃ s', sys_enqueue421 State.init (List.replicate 512 (some 7)) 512 true
      (some (List.replicate 512 0)) = .returned (0, s') :=
  (sys_enqueue421_precedence State.init (List.replicate 512 (some 7)) 512 true
    (some (List.replicate 512 0))).2.2.2.2.2.1
    (by decide) (by decide) rfl rfl
    (by
      have h := copy_from_user_payload (List.replicate 512 (some 7))
        (List.replicate 512 7) (by rw [List.length_replicate, List.map_replicate,
          List.take_replicate, Nat.min_self])
      rw [List.length_replicate] at h
      rw [show toULong 512 = 512 from by decide, h])
    (by decide)

/-- C5: a call of `sys_enqueue421` that returns 0 leaves the list equal to the
old list followed by one new message, whose `length` is `len` and whose first
`len` bytes are the first `len` bytes of the source; the counter is one more
than before (and the semaphore is as before). -/
theorem sys_enqueue421_success (s s' : State) (data : UserMem) (len : Int)
    (accessOk : Bool) (kmalloc : Option (List Byte))
    (h : sys_enqueue421 s data len accessOk kmalloc = .returned (0, s')) :
    ∃ m : message,
      s'.queueHead421 = s.queueHead421 ++ [m] ∧
      m.length = len ∧
      0 ≤ len ∧ len ≤ 512 ∧
      (m.data.take len.toNat).map some = data.take len.toNat ∧
      s'.numElements421 = s.numElements421 + 1 ∧
      s'.queueLock421 = s.queueLock421 := by
  unfold sys_enqueue421 at h
  split at h
  · simp [EINVAL] at h
  split at h
  · simp [E2BIG] at h
  split at h
  · simp [EFAULT] at h
  split at h
  · simp [ENOMEM] at h
  rename_i h0 h1 _ _ block
  simp only [MAX_SIZE, not_lt] at h0 h1
  simp only at h
  split at h
  · simp [EFAULT] at h
  rename_i hc
  simp only [ne_eq, not_not] at hc
  have hn := toULong_eq len h0 h1
  rw [hn] at h hc
  have hcp := copy_from_user_ok data len.toNat hc
  unfold down at h
  split at h
  · simp [Outcome.bind] at h
  rename_i hl
  simp only [Outcome.bind, Outcome.returned.injEq, Prod.mk.injEq, true_and] at h
  subst h
  refine ⟨_, rfl, rfl, h0, h1, ?_, rfl, ?_⟩
  · simp only
    rw [List.take_append_of_le_length (by rw [hcp.2]), List.take_of_length_le (by rw [hcp.2])]
    exact hcp.1
  · simp only [up]
    omega

/-- Witness for C5: the append of the five bytes of "hello" to the initial
state. -/
theorem sys_enqueue421_success_witness :
    ∃ m : message,
      (⟨1, [⟨[104, 101, 108, 108, 111, 0, 0, 0], 5⟩], 1⟩ : State).queueHead421
        = State.init.queueHead421 ++ [m] ∧
      m.length = 5 ∧ (0 : Int) ≤ 5 ∧ (5 : Int) ≤ 512 ∧
      (m.data.take (5 : Int).toNat).map some
        = ([some 104, some 101, some 108, some 108, some 111] : UserMem).take
            (5 : Int).toNat ∧
      (⟨1, [⟨[104, 101, 108, 108, 111, 0, 0, 0], 5⟩], 1⟩ : State).numElements421
        = State.init.numElements421 + 1 ∧
      (⟨1, [⟨[104, 101, 108, 108, 111, 0, 0, 0], 5⟩], 1⟩ : State).queueLock421
        = State.init.queueLock421 :=
  sys_enqueue421_success State.init _
    [some 104, some 101, some 108, some 108, some 111] 5 true
    (some [0, 0, 0, 0, 0, 0, 0, 0]) (by decide)

/-- C6: a call of `sys_enqueue421` that returns an error (any value other than
0: -EINVAL, -E2BIG, -EFAULT from `access_ok`, -ENOMEM, or -EFAULT from the
copy) leaves the globals, hence the list of messages and the counter, exactly
as they were; and every call that changes the list or the counter returns 0. -/
theorem sys_enqueue421_failure_atomic (s s' : State) (data : UserMem)
    (len : Int) (accessOk : Bool) (kmalloc : Option (List Byte)) (r : Int)
    (h : sys_enqueue421 s data len accessOk kmalloc = .returned (r, s'))
    (hr : r ≠ 0) :
    s' = s ∧ s'.queueHead421 = s.queueHead421 ∧
      s'.numElements421 = s.numElements421 := by
  have key : s' = s := by
    unfold sys_enqueue421 at h
    split at h
    · simp at h; exact h.2.symm
    split at h
    · simp at h; exact h.2.symm
    split at h
    · simp at h; exact h.2.symm
    split at h
    · simp at h; exact h.2.symm
    simp only at h
    split at h
    · simp at h; exact h.2.symm
    unfold down at h
    split at h
    · simp [Outcome.bind] at h
    simp only [Outcome.bind, Outcome.returned.injEq, Prod.mk.injEq] at h
    exact absurd h.1.symm hr
  subst key
  exact ⟨rfl, rfl, rfl⟩

/-- Witness for C6: an append of four bytes whose copy faults on the third
byte, on a queue holding one message, returns -EFAULT. -/
theorem sys_enqueue421_failure_atomic_witness :
    sys_enqueue421 ⟨1, [⟨[1, 2], 2⟩], 1⟩ [some 9, some 9, none, some 9] 4 true
        (some [0, 0, 0, 0]) = .returned (-EFAULT, ⟨1, [⟨[1, 2], 2⟩], 1⟩) ∧
      ((⟨1, [⟨[1, 2], 2⟩], 1⟩ : State) = ⟨1, [⟨[1, 2], 2⟩], 1⟩ ∧
        (⟨1, [⟨[1, 2], 2⟩], 1⟩ : State).queueHead421 = [⟨[1, 2], 2⟩] ∧
        (⟨1, [⟨[1, 2], 2⟩], 1⟩ : State).numElements421 = 1) :=
  ⟨by decide,
   sys_enqueue421_failure_atomic ⟨1, [⟨[1, 2], 2⟩], 1⟩ ⟨1, [⟨[1, 2], 2⟩], 1⟩
    [some 9, some 9, none, some 9] 4 true (some [0, 0, 0, 0]) (-EFAULT)
    (by decide) (by decide)⟩

/-! ## `sys_dequeue421` -/

theorem up_down (s : State) (h : 0 < s.queueLock421) :
    down s = .returned { s with queueLock421 := s.queueLock421 - 1 } ∧
      up { s with queueLock421 := s.queueLock421 - 1 } = s := by
  constructor
  · unfold down
    rw [if_neg (by omega)]
  · cases s with
    | mk l q n =>
      simp only [up] at h ⊢
      congr 1
      omega

/-- The call `sys_dequeue421` from a state whose semaphore is free, written as
one chain of tests over the state before the call. -/
theorem sys_dequeue421_eq (s : State) (data : UserMem) (len : Int)
    (accessOk : Bool) (hl : 0 < s.queueLock421) :
    sys_dequeue421 s data len accessOk =
      match s.queueHead421 with
      | [] => .returned ⟨-ENODATA, s, data⟩
      | tmp :: rest =>
        if accessOk = false then .returned ⟨-EFAULT, s, data⟩
        else if len < 0 then .returned ⟨-EINVAL, s, data⟩
        else if 512 < len then .returned ⟨-E2BIG, s, data⟩
        else if len < tmp.length then
          .returned ⟨-E2BIG, { s with queueLock421 := s.queueLock421 - 1 }, data⟩
        else if (copy_to_user data tmp.data (toULong tmp.length)).2 ≠ 0 then
          .returned ⟨-EFAULT, s, (copy_to_user data tmp.data (toULong tmp.length)).1⟩
        else
          .returned ⟨0, { s with queueHead421 := rest,
                                 numElements421 := s.numElements421 - 1 },
            (copy_to_user data tmp.data (toULong tmp.length)).1⟩ := by
  obtain ⟨hd, hu⟩ := up_down s hl
  cases s with
  | mk l q n =>
    simp only at hl hd hu ⊢
    cases q with
    | nil =>
      simp only [sys_dequeue421, sys_dequeue421_check, hd, Outcome.bind, hu]
    | cons tmp rest =>
      simp only [sys_dequeue421, sys_dequeue421_check, hd, Outcome.bind, hu]
      cases accessOk with
      | false => simp
      | true =>
        simp only [Bool.not_true, Bool.false_eq_true, if_false, MAX_SIZE, gt_iff_lt]
        by_cases h0 : len < 0
        · simp [h0]
        · by_cases h1 : 512 < len
          · simp [h0, h1]
          · simp only [h0, h1, if_false, sys_dequeue421_take, hd, Outcome.bind]
            by_cases h2 : len < tmp.length
            · simp [h2]
            · have h3 : (if tmp.length < len then tmp.length else len) = tmp.length := by
                split <;> omega
              simp only [h2, if_false, h3]
              by_cases h4 : (copy_to_user data tmp.data (toULong tmp.length)).2 = 0
              · simp only [h4, ne_eq, not_true_eq_false, if_false]
                simp only [up] at hu ⊢
                simp only [State.mk.injEq] at hu
                simp [hu.1]
              · simp [h4, hu]

/-- A call of `sys_dequeue421` from a state whose semaphore is held never
returns. -/
theorem sys_dequeue421_blocked (s : State) (data : UserMem) (len : Int)
    (accessOk : Bool) (hl : s.queueLock421 = 0) :
    sys_dequeue421 s data len accessOk = .blocked := by
  simp [sys_dequeue421, sys_dequeue421_check, down, hl, Outcome.bind]

/-- Every returning call of `sys_dequeue421` ends in one of seven ways, read
off the state before the call. -/
theorem sys_dequeue421_returned (s : State) (data : UserMem) (len : Int)
    (accessOk : Bool) (r : DequeueResult)
    (h : sys_dequeue421 s data len accessOk = .returned r) :
    0 < s.queueLock421 ∧
    ((s.queueHead421 = [] ∧ r = ⟨-ENODATA, s, data⟩) ∨
     (∃ tmp rest, s.queueHead421 = tmp :: rest ∧
        ((accessOk = false ∧ r = ⟨-EFAULT, s, data⟩) ∨
         (accessOk = true ∧ len < 0 ∧ r = ⟨-EINVAL, s, data⟩) ∨
         (accessOk = true ∧ 512 < len ∧ r = ⟨-E2BIG, s, data⟩) ∨
         (accessOk = true ∧ 0 ≤ len ∧ len ≤ 512 ∧ len < tmp.length ∧
            r = ⟨-E2BIG, { s with queueLock421 := s.queueLock421 - 1 }, data⟩) ∨
         (accessOk = true ∧ 0 ≤ len ∧ len ≤ 512 ∧ tmp.length ≤ len ∧
            (copy_to_user data tmp.data (toULong tmp.length)).2 ≠ 0 ∧
            r = ⟨-EFAULT, s, (copy_to_user data tmp.data (toULong tmp.length)).1⟩) ∨
         (accessOk = true ∧ 0 ≤ len ∧ len ≤ 512 ∧ tmp.length ≤ len ∧
            (copy_to_user data tmp.data (toULong tmp.length)).2 = 0 ∧
            r = ⟨0,
              { s with queueHead421 := rest, numElements421 := s.numElements421 - 1 },
              (copy_to_user data tmp.data (toULong tmp.length)).1⟩)))) := by
  have hl : 0 < s.queueLock421 := by
    by_contra hc
    rw [sys_dequeue421_blocked s data len accessOk (by omega)] at h
    cases h
  refine ⟨hl, ?_⟩
  rw [sys_dequeue421_eq s data len accessOk hl] at h
  split at h
  · rename_i hq
    left
    simp only [Outcome.returned.injEq] at h
    exact ⟨hq, h.symm⟩
  · rename_i tmp rest hq
    right
    refine ⟨tmp, rest, hq, ?_⟩
    split at h
    · rename_i ha
      simp only [Outcome.returned.injEq] at h
      exact Or.inl ⟨ha, h.symm⟩
    rename_i ha
    have ha' : accessOk = true := by simpa using ha
    split at h
    · rename_i h0
      simp only [Outcome.returned.injEq] at h
      exact Or.inr (Or.inl ⟨ha', h0, h.symm⟩)
    rename_i h0
    split at h
    · rename_i h1
      simp only [Outcome.returned.injEq] at h
      exact Or.inr (Or.inr (Or.inl ⟨ha', h1, h.symm⟩))
    rename_i h1
    split at h
    · rename_i h2
      simp only [Outcome.returned.injEq] at h
      exact Or.inr (Or.inr (Or.inr (Or.inl
        ⟨ha', by omega, by omega, h2, h.symm⟩)))
    rename_i h2
    split at h
    · rename_i h3
      simp only [Outcome.returned.injEq] at h
      exact Or.inr (Or.inr (Or.inr (Or.inr (Or.inl
        ⟨ha', by omega, by omega, by omega, h3, h.symm⟩))))
    · rename_i h3
      simp only [Outcome.returned.injEq] at h
      exact Or.inr (Or.inr (Or.inr (Or.inr (Or.inr
        ⟨ha', by omega, by omega, by omega, by simpa using h3, h.symm⟩))))

/-- A call of `sys_dequeue421` from a state whose semaphore is free returns. -/
theorem sys_dequeue421_returns (s : State) (data : UserMem) (len : Int)
    (accessOk : Bool) (hl : 0 < s.queueLock421) :
    ∃ r, sys_dequeue421 s data len accessOk = .returned r := by
  rw [sys_dequeue421_eq s data len accessOk hl]
  split
  · exact ⟨_, rfl⟩
  · repeat' split
    all_goals exact ⟨_, rfl⟩

/-- C7: `sys_dequeue421` removes only together with a successful delivery.  A
call made with the semaphore free returns; and for every call that returns, the
head message is unlinked and the counter lowered by one if and only if the
returned value is 0, while every error return (-ENODATA, -EINVAL, -E2BIG for an
oversized `len`, -EFAULT from `access_ok`, -E2BIG for a head longer than `len`,
-EFAULT from the copy) leaves the list of messages and the counter exactly as
they were. -/
theorem sys_dequeue421_atomic (s : State) (data : UserMem) (len : Int)
    (accessOk : Bool) :
    (0 < s.queueLock421 →
      ∃ r, sys_dequeue421 s data len accessOk = .returned r) ∧
    ∀ r, sys_dequeue421 s data len accessOk = .returned r →
      (((∃ m, s.queueHead421 = m :: r.state.queueHead421) ∧
          r.state.numElements421 = s.numElements421 - 1) ↔ r.ret = 0) ∧
      (r.ret ≠ 0 →
        r.state.queueHead421 = s.queueHead421 ∧
          r.state.numElements421 = s.numElements421) := by
  refine ⟨sys_dequeue421_returns s data len accessOk, ?_⟩
  intro r h
  obtain ⟨_, hc⟩ := sys_dequeue421_returned s data len accessOk r h
  rcases hc with ⟨_, rfl⟩ | ⟨tmp, rest, hq, hc⟩
  · simp [ENODATA]
  · rcases hc with ⟨_, rfl⟩ | ⟨_, _, rfl⟩ | ⟨_, _, rfl⟩ | ⟨_, _, _, _, rfl⟩ |
      ⟨_, _, _, _, _, rfl⟩ | ⟨_, _, _, _, _, rfl⟩
    · simp [EFAULT]
    · simp [EINVAL]
    · simp [E2BIG]
    · simp [E2BIG]
    · simp [EFAULT]
    · simp [hq]

/-- Witness for C7: a removal with capacity 1 from a queue whose head holds two
bytes returns, with the error -E2BIG, and leaves list and counter alone. -/
theorem sys_dequeue421_atomic_witness :
    (∃ r, sys_dequeue421 ⟨1, [⟨[1, 2], 2⟩], 1⟩ [some 0] 1 true = .returned r) ∧
    ((⟨-7, ⟨0, [⟨[1, 2], 2⟩], 1⟩, [some 0]⟩ : DequeueResult).ret ≠ 0 →
      (⟨-7, ⟨0, [⟨[1, 2], 2⟩], 1⟩, [some 0]⟩ : DequeueResult).state.queueHead421
          = (⟨1, [⟨[1, 2], 2⟩], 1⟩ : State).queueHead421 ∧
        (⟨-7, ⟨0, [⟨[1, 2], 2⟩], 1⟩, [some 0]⟩ : DequeueResult).state.numElements421
          = (⟨1, [⟨[1, 2], 2⟩], 1⟩ : State).numElements421) :=
  ⟨(sys_dequeue421_atomic ⟨1, [⟨[1, 2], 2⟩], 1⟩ [some 0] 1 true).1 (by decide),
   ((sys_dequeue421_atomic ⟨1, [⟨[1, 2], 2⟩], 1⟩ [some 0] 1 true).2
      ⟨-7, ⟨0, [⟨[1, 2], 2⟩], 1⟩, [some 0]⟩ (by decide)).2⟩

/-- C3, as the claim states it, fails: after `sys_enqueue421("hello", 5)` on
the initial state, `sys_dequeue421(buf, 5)` delivers the five bytes and returns
0, not 5. -/
theorem sys_dequeue421_returns_zero_not_length :
    ∃ s1 r,
      sys_enqueue421 State.init [some 104, some 101, some 108, some 108, some 111]
        5 true (some [0, 0, 0, 0, 0, 0, 0, 0]) = .returned (0, s1) ∧
      sys_dequeue421 s1 [some 0, some 0, some 0, some 0, some 0] 5 true
        = .returned r ∧
      r.data = [some 104, some 101, some 108, some 108, some 111] ∧
      r.ret = 0 ∧ r.ret ≠ 5 :=
  ⟨⟨1, [⟨[104, 101, 108, 108, 111, 0, 0, 0], 5⟩], 1⟩,
   ⟨0, State.init, [some 104, some 101, some 108, some 108, some 111]⟩,
   by decide, by decide, by decide, by decide, by decide⟩

/-- C3, amended: for every non-empty queue and every call of `sys_dequeue421`
that succeeds (returns no negative value), the returned value is 0; the head
is no longer than `len`, and the bytes copied to the destination are the first
`length` bytes of the head message, `length` being the head's length at the
time of the call; the destination beyond them is as before. -/
theorem sys_dequeue421_success_value (s : State) (m : message)
    (rest : List message) (hq : s.queueHead421 = m :: rest) (data : UserMem)
    (len : Int) (accessOk : Bool) (r : DequeueResult)
    (h : sys_dequeue421 s data len accessOk = .returned r) (hr : 0 ≤ r.ret) :
    r.ret = 0 ∧ m.length ≤ len ∧
      r.data = (m.data.take (toULong m.length)).map some
                ++ data.drop (toULong m.length) ∧
      toULong m.length ≤ m.data.length ∧
      (0 ≤ m.length → (toULong m.length : Int) = m.length) := by
  obtain ⟨_, hc⟩ := sys_dequeue421_returned s data len accessOk r h
  rcases hc with ⟨hq', _⟩ | ⟨tmp, rest', hq', hc⟩
  · rw [hq] at hq'; cases hq'
  · rw [hq] at hq'
    obtain ⟨rfl, rfl⟩ := List.cons.inj hq'
    rcases hc with ⟨_, rfl⟩ | ⟨_, _, rfl⟩ | ⟨_, _, rfl⟩ | ⟨_, _, _, _, rfl⟩ |
      ⟨_, _, _, _, _, rfl⟩ | ⟨_, _, h512, hle, hcopy, rfl⟩
    · simp [EFAULT] at hr
    · simp [EINVAL] at hr
    · simp [E2BIG] at hr
    · simp [E2BIG] at hr
    · simp [EFAULT] at hr
    · obtain ⟨hd, hn, _⟩ := copy_to_user_ok data m.data _ hcopy
      refine ⟨rfl, hle, hd, hn, ?_⟩
      intro h0
      rw [toULong_eq m.length h0 (by omega)]
      exact Int.toNat_of_nonneg h0

/-- Witness for C3 (amended): the removal of "hello" with capacity 5. -/
theorem sys_dequeue421_success_value_witness :
    (0 : Int) = 0 ∧ (5 : Int) ≤ 5 ∧
      ([some 104, some 101, some 108, some 108, some 111] : UserMem)
        = (([104, 101, 108, 108, 111, 0, 0, 0] : List Byte).take (toULong 5)).map some
            ++ ([some 0, some 0, some 0, some 0, some 0] : UserMem).drop (toULong 5) ∧
      toULong 5 ≤ ([104, 101, 108, 108, 111, 0, 0, 0] : List Byte).length ∧
      ((0 : Int) ≤ 5 → (toULong 5 : Int) = 5) :=
  sys_dequeue421_success_value
    ⟨1, [⟨[104, 101, 108, 108, 111, 0, 0, 0], 5⟩], 1⟩
    ⟨[104, 101, 108, 108, 111, 0, 0, 0], 5⟩ [] rfl
    [some 0, some 0, some 0, some 0, some 0] 5 true
    ⟨0, State.init, [some 104, some 101, some 108, some 108, some 111]⟩
    (by decide) (by decide)

/-- C8: evaluation of the code at the failing input.  On a non-empty queue,
with the semaphore free, `sys_dequeue421` with `len = -1` returns -EFAULT, not
-EINVAL: `access_ok` (lines 105-106) is asked before `len` is looked at (lines
109-112), and for a negative `len`, which it takes as an `unsigned long` size,
it fails.  In the same way `len = 513` with a destination that fails
`access_ok` returns -EFAULT, not -E2BIG. -/
theorem sys_dequeue421_access_check_first :
    sys_dequeue421 ⟨1, [⟨[1, 2], 2⟩], 1⟩ [] (-1) false
      = .returned ⟨-EFAULT, ⟨1, [⟨[1, 2], 2⟩], 1⟩, []⟩ ∧
    sys_dequeue421 ⟨1, [⟨[1, 2], 2⟩], 1⟩ [] 513 false
      = .returned ⟨-EFAULT, ⟨1, [⟨[1, 2], 2⟩], 1⟩, []⟩ ∧
    -EFAULT ≠ -EINVAL ∧ -EFAULT ≠ -E2BIG := by
  decide

/-- The order of the checks of `sys_dequeue421` as the code has it, for a call
made with the semaphore free: -ENODATA, -EFAULT (`access_ok`), -EINVAL, -E2BIG
(`len` above 512), -E2BIG (head longer than `len`): on an empty queue it returns
-ENODATA for every destination, access result and `len`; on a non-empty queue
a failed `access_ok` returns -EFAULT for every `len`; when `access_ok` passes,
`len < 0` returns -EINVAL and `len > 512` returns -E2BIG, none of these
returns changing the globals or the destination; and when all of these checks
pass, a head longer than `len` returns -E2BIG with the destination
untouched. -/
theorem sys_dequeue421_check_order (s : State) (data : UserMem) (len : Int)
    (accessOk : Bool) (hl : 0 < s.queueLock421) :
    (s.queueHead421 = [] →
      sys_dequeue421 s data len accessOk = .returned ⟨-ENODATA, s, data⟩) ∧
    (s.queueHead421 ≠ [] → accessOk = false →
      sys_dequeue421 s data len accessOk = .returned ⟨-EFAULT, s, data⟩) ∧
    (s.queueHead421 ≠ [] → accessOk = true → len < 0 →
      sys_dequeue421 s data len accessOk = .returned ⟨-EINVAL, s, data⟩) ∧
    (s.queueHead421 ≠ [] → accessOk = true → 512 < len →
      sys_dequeue421 s data len accessOk = .returned ⟨-E2BIG, s, data⟩) ∧
    (∀ m rest, s.queueHead421 = m :: rest → accessOk = true → 0 ≤ len →
      len ≤ 512 → len < m.length →
      ∃ r, sys_dequeue421 s data len accessOk = .returned r ∧
        r.ret = -E2BIG ∧ r.data = data) := by
  rw [sys_dequeue421_eq s data len accessOk hl]
  refine ⟨?_, ?_, ?_, ?_, ?_⟩
  · intro hq
    rw [hq]
  · intro hq ha
    split
    · rename_i h; exact absurd h hq
    · simp [ha]
  · intro hq ha h0
    split
    · rename_i h; exact absurd h hq
    · simp [ha, h0]
  · intro hq ha h1
    split
    · rename_i h; exact absurd h hq
    · have h0 : ¬ len < 0 := by omega
      simp [ha, h0, h1]
  · intro m rest hq ha h0 h1 h2
    rw [hq]
    have h0' : ¬ len < 0 := by omega
    have h1' : ¬ 512 < len := by omega
    simp only [ha, Bool.true_eq_false, if_false, h0', h1', h2, if_true]
    exact ⟨_, rfl, rfl, rfl⟩

/-- Instances of the order of the checks: the four returns on concrete
calls. -/
theorem sys_dequeue421_check_order_witness :
    sys_dequeue421 State.init [some 0] 1 true
      = .returned ⟨-ENODATA, State.init, [some 0]⟩ ∧
    sys_dequeue421 ⟨1, [⟨[1, 2], 2⟩], 1⟩ [some 0] (-1) false
      = .returned ⟨-EFAULT, ⟨1, [⟨[1, 2], 2⟩], 1⟩, [some 0]⟩ ∧
    sys_dequeue421 ⟨1, [⟨[1, 2], 2⟩], 1⟩ [some 0] (-1) true
      = .returned ⟨-EINVAL, ⟨1, [⟨[1, 2], 2⟩], 1⟩, [some 0]⟩ ∧
    sys_dequeue421 ⟨1, [⟨[1, 2], 2⟩], 1⟩ [some 0] 513 true
      = .returned ⟨-E2BIG, ⟨1, [⟨[1, 2], 2⟩], 1⟩, [some 0]⟩ :=
  ⟨(sys_dequeue421_check_order State.init [some 0] 1 true (by decide)).1 rfl,
   (sys_dequeue421_check_order ⟨1, [⟨[1, 2], 2⟩], 1⟩ [some 0] (-1) false
      (by decide)).2.1 (by decide) rfl,
   (sys_dequeue421_check_order ⟨1, [⟨[1, 2], 2⟩], 1⟩ [some 0] (-1) true
      (by decide)).2.2.1 (by decide) rfl (by decide),
   (sys_dequeue421_check_order ⟨1, [⟨[1, 2], 2⟩], 1⟩ [some 0] 513 true
      (by decide)).2.2.2.1 (by decide) rfl (by decide)⟩

/-- A valid append stores the payload: called with the semaphore free, a
length equal to the payload's and at most 512, a passing `access_ok`, a
successful allocation and a source that holds the payload, `sys_enqueue421`
returns 0 and links a message with the payload's length and bytes at the
tail. -/
theorem sys_enqueue421_valid (s : State) (p : List Byte) (data : UserMem)
    (block : List Byte) (hl : 0 < s.queueLock421) (hp : p.length ≤ 512)
    (hsrc : holds data p) :
    sys_enqueue421 s data p.length true (some block) =
      .returned (0,
        { s with
          queueHead421 := s.queueHead421 ++ [⟨p ++ block.drop p.length, p.length⟩]
          numElements421 := s.numElements421 + 1 }) := by
  obtain ⟨hd, hu⟩ := up_down s hl
  have h0 : ¬ ((p.length : Int) < 0) := by omega
  have h1 : ¬ ((p.length : Int) > MAX_SIZE) := by simp only [MAX_SIZE]; omega
  have hc := copy_from_user_payload data p hsrc
  simp only [sys_enqueue421, h0, h1, if_false, Bool.not_true, Bool.false_eq_true,
    toULong_natCast p.length hp, hc, ne_eq, not_true_eq_false, hd, Outcome.bind]
  cases s with
  | mk l q n =>
    simp only [up, State.mk.injEq] at hu ⊢
    simp [hu.1]

/-- A valid removal delivers the head: called with the semaphore free on a
queue whose head has length `p.length` and starts with the bytes `p`, with a
passing `access_ok`, `p.length ≤ len ≤ 512` and a destination whose first
`p.length` bytes are writable, `sys_dequeue421` returns 0, writes `p` over the
start of the destination and unlinks the head. -/
theorem sys_dequeue421_valid (s : State) (m : message) (rest : List message)
    (p : List Byte) (data : UserMem) (len : Int)
    (hl : 0 < s.queueLock421) (hq : s.queueHead421 = m :: rest)
    (hm : m.length = p.length) (hdata : m.data.take p.length = p)
    (h0 : (p.length : Int) ≤ len) (h1 : len ≤ 512)
    (hw : accessible data p.length = true) :
    sys_dequeue421 s data len true =
      .returned ⟨0,
        { s with queueHead421 := rest, numElements421 := s.numElements421 - 1 },
        p.map some ++ data.drop p.length⟩ := by
  have hp : p.length ≤ 512 := by omega
  have hlen : p.length ≤ m.data.length := by
    have := congrArg List.length hdata
    simp only [List.length_take] at this
    omega
  have hc := copy_to_user_accessible data m.data p.length hlen hw
  rw [sys_dequeue421_eq s data len true hl, hq]
  have h2 : ¬ len < 0 := by omega
  have h3 : ¬ 512 < len := by omega
  have h4 : ¬ len < (p.length : Int) := by omega
  simp only [Bool.true_eq_false, if_false, h2, h3, h4, hm,
    toULong_natCast p.length hp, hc, ne_eq, not_true_eq_false, hdata]

/-- C9: evaluation of the code at the failing input.  After
`sys_enqueue421("world!", 6)` on the initial state, `sys_dequeue421(buf, 3)`
returns -E2BIG, writes nothing and leaves list and counter alone, but it
returns with the semaphore held (count 0); the following
`sys_dequeue421(buf, 6)` with a writable destination then never returns,
instead of delivering "world!". -/
theorem sys_dequeue421_toobig_then_blocked :
    ∃ s1 s2,
      sys_enqueue421 State.init
        [some 119, some 111, some 114, some 108, some 100, some 33] 6 true
        (some [0, 0, 0, 0, 0, 0, 0, 0]) = .returned (0, s1) ∧
      sys_dequeue421 s1 [some 0, some 0, some 0] 3 true
        = .returned ⟨-E2BIG, s2, [some 0, some 0, some 0]⟩ ∧
      s2.queueHead421 = s1.queueHead421 ∧
      s2.numElements421 = s1.numElements421 ∧
      s1.queueLock421 = 1 ∧ s2.queueLock421 = 0 ∧
      sys_dequeue421 s2 [some 0, some 0, some 0, some 0, some 0, some 0] 6 true
        = .blocked :=
  ⟨⟨1, [⟨[119, 111, 114, 108, 100, 33, 0, 0], 6⟩], 1⟩,
   ⟨0, [⟨[119, 111, 114, 108, 100, 33, 0, 0], 6⟩], 1⟩,
   by decide, by decide, rfl, rfl, rfl, rfl, by decide⟩

theorem enqueueAll_valid (ps : List (List Byte)) (cs : List EnqueueCall)
    (h : List.Forall₂ ValidAppend ps cs) (s : State) (hl : 0 < s.queueLock421) :
    ∃ ms, List.Forall₂ Stores ps ms ∧
      enqueueAll s cs = .returned (List.replicate ps.length 0,
        { s with
          queueHead421 := s.queueHead421 ++ ms
          numElements421 := s.numElements421 + ps.length }) := by
  induction h generalizing s with
  | nil =>
    refine ⟨[], List.Forall₂.nil, ?_⟩
    simp [enqueueAll]
  | @cons p c ps cs hpc _ ih =>
    obtain ⟨hlen, hp, ha, hk, hsrc⟩ := hpc
    obtain ⟨block, hb⟩ := Option.isSome_iff_exists.mp hk
    have h1 := sys_enqueue421_valid s p c.data block hl hp hsrc
    obtain ⟨ms, hms, h2⟩ := ih
      { s with
        queueHead421 := s.queueHead421 ++ [⟨p ++ block.drop p.length, p.length⟩]
        numElements421 := s.numElements421 + 1 } hl
    refine ⟨⟨p ++ block.drop p.length, p.length⟩ :: ms,
      List.Forall₂.cons ⟨rfl, by simp⟩ hms, ?_⟩
    simp only [enqueueAll, hlen, ha, hb, h1, Outcome.bind, h2, List.length_cons,
      List.replicate_succ, List.append_assoc, List.singleton_append,
      Nat.cast_add, Nat.cast_one]
    congr 3
    omega

theorem dequeueAll_valid (ps : List (List Byte)) (ms : List message)
    (hs : List.Forall₂ Stores ps ms) (ds : List DequeueCall)
    (hd : List.Forall₂ ValidRemove ps ds) (s : State) (rest : List message)
    (hl : 0 < s.queueLock421) (hq : s.queueHead421 = ms ++ rest) :
    dequeueAll s ds = .returned
      (List.zipWith (fun p c => ((0 : Int), p.map some ++ c.data.drop p.length))
          ps ds,
        { s with
          queueHead421 := rest
          numElements421 := s.numElements421 - ps.length }) := by
  induction hs generalizing ds s with
  | nil =>
    cases hd
    cases s
    simp only [List.nil_append] at hq
    simp [dequeueAll, hq]
  | @cons p m ps ms hpm _ ih =>
    cases hd with
    | @cons _ d _ ds hpd hds =>
      obtain ⟨ha, h0, h1, hw⟩ := hpd
      have h2 := sys_dequeue421_valid s m (ms ++ rest) p d.data d.len hl
        (by simpa using hq) hpm.1 hpm.2 h0 h1 hw
      have h3 := ih ds hds
        { s with
          queueHead421 := ms ++ rest
          numElements421 := s.numElements421 - 1 } hl rfl
      simp only [dequeueAll, ha, h2, Outcome.bind, h3, List.zipWith_cons_cons,
        List.length_cons, Nat.cast_add, Nat.cast_one]
      congr 3
      omega

/-- C1 (FIFO law): starting from the initial, empty queue, for every list of
payloads `A1..An` and every list of valid appends of them (each length between
0 and 512, `access_ok` passing, allocation and copy succeeding), every append
returns 0 and `sys_queueLen421` afterwards returns `n`; and `n` removals, the
i-th with a passing `access_ok`, a capacity of at least the length of `Ai` and
at most 512 and a destination writable for that many bytes, all return 0 and
deliver the payloads `A1..An` in this order, each over the start of its
destination, leaving the queue empty (the initial state). -/
theorem fifo_law (ps : List (List Byte)) (cs : List EnqueueCall)
    (ds : List DequeueCall) (hc : List.Forall₂ ValidAppend ps cs)
    (hd : List.Forall₂ ValidRemove ps ds) :
    ∃ s1,
      enqueueAll State.init cs = .returned (List.replicate ps.length 0, s1) ∧
      sys_queueLen421 s1 = ps.length ∧
      dequeueAll s1 ds = .returned
        (List.zipWith
            (fun p c => ((0 : Int), p.map some ++ c.data.drop p.length)) ps ds,
          State.init) := by
  obtain ⟨ms, hms, h1⟩ := enqueueAll_valid ps cs hc State.init Nat.one_pos
  refine ⟨_, h1, by simp [sys_queueLen421, State.init], ?_⟩
  have h2 := dequeueAll_valid ps ms hms ds hd
    { State.init with
      queueHead421 := State.init.queueHead421 ++ ms
      numElements421 := State.init.numElements421 + ps.length } []
    Nat.one_pos (by simp [State.init])
  rw [h2]
  simp [State.init]

/-- Witness for C1: "hello" and "world!" appended, then removed with capacities
5 and 8. -/
theorem fifo_law_witness :
    ∃ s1,
      enqueueAll State.init
          [⟨[some 104, some 101, some 108, some 108, some 111], 5, true, some []⟩,
           ⟨[some 119, some 111, some 114, some 108, some 100, some 33], 6, true,
              some []⟩]
        = .returned (List.replicate
            ([[104, 101, 108, 108, 111], [119, 111, 114, 108, 100, 33]] :
              List (List Byte)).length 0, s1) ∧
      sys_queueLen421 s1
        = (([[104, 101, 108, 108, 111], [119, 111, 114, 108, 100, 33]] :
              List (List Byte)).length : Int) ∧
      dequeueAll s1
          [⟨List.replicate 5 (some 0), 5, true⟩, ⟨List.replicate 8 (some 0), 8, true⟩]
        = .returned
          (List.zipWith
              (fun p (c : DequeueCall) =>
                ((0 : Int), p.map some ++ c.data.drop p.length))
              [[104, 101, 108, 108, 111], [119, 111, 114, 108, 100, 33]]
              [⟨List.replicate 5 (some 0), 5, true⟩,
               ⟨List.replicate 8 (some 0), 8, true⟩],
            State.init) :=
  fifo_law [[104, 101, 108, 108, 111], [119, 111, 114, 108, 100, 33]]
    [⟨[some 104, some 101, some 108, some 108, some 111], 5, true, some []⟩,
     ⟨[some 119, some 111, some 114, some 108, some 100, some 33], 6, true,
        some []⟩]
    [⟨List.replicate 5 (some 0), 5, true⟩, ⟨List.replicate 8 (some 0), 8, true⟩]
    (List.Forall₂.cons (by decide) (List.Forall₂.cons (by decide) List.Forall₂.nil))
    (List.Forall₂.cons (by decide) (List.Forall₂.cons (by decide) List.Forall₂.nil))

/-! ## Sequences of calls: what every reachable state satisfies -/

theorem toInt_eq (n : Int) (h0 : -2 ^ 31 ≤ n) (h1 : n < 2 ^ 31) : toInt n = n := by
  unfold toInt
  rw [Int.emod_eq_of_lt (by omega) (by omega)]
  omega

theorem copy_to_user_frame (dst : UserMem) (src : List Byte) (n k : Nat)
    (h : n ≤ k) : (copy_to_user dst src n).1.drop k = dst.drop k := by
  induction n generalizing dst src k with
  | zero => simp [copy_to_user]
  | succ n ih =>
    match dst, src with
    | [], _ => simp [copy_to_user]
    | none :: _, _ => simp [copy_to_user]
    | some _ :: _, [] => simp [copy_to_user]
    | some c :: dst, b :: src =>
      obtain ⟨k, rfl⟩ : ∃ j, k = j + 1 := ⟨k - 1, by omega⟩
      simp only [copy_to_user, List.drop_succ_cons]
      exact ih dst src k (by omega)

/-- Every returning call of `sys_enqueue421` either fails and leaves the
globals alone, or returns 0 and links one message of length `len`, with
`0 ≤ len ≤ 512`, at the tail. -/
theorem sys_enqueue421_returned (s s' : State) (data : UserMem) (len : Int)
    (accessOk : Bool) (kmalloc : Option (List Byte)) (r : Int)
    (h : sys_enqueue421 s data len accessOk kmalloc = .returned (r, s')) :
    (r ≠ 0 ∧ s' = s) ∨
    (r = 0 ∧ 0 ≤ len ∧ len ≤ 512 ∧ ∃ m : message, m.length = len ∧
      s'.queueHead421 = s.queueHead421 ++ [m] ∧
      s'.numElements421 = s.numElements421 + 1 ∧
      s'.queueLock421 = s.queueLock421) := by
  unfold sys_enqueue421 at h
  split at h
  · simp only [Outcome.returned.injEq, Prod.mk.injEq] at h
    exact Or.inl ⟨by rw [← h.1]; decide, h.2.symm⟩
  split at h
  · simp only [Outcome.returned.injEq, Prod.mk.injEq] at h
    exact Or.inl ⟨by rw [← h.1]; decide, h.2.symm⟩
  split at h
  · simp only [Outcome.returned.injEq, Prod.mk.injEq] at h
    exact Or.inl ⟨by rw [← h.1]; decide, h.2.symm⟩
  split at h
  · simp only [Outcome.returned.injEq, Prod.mk.injEq] at h
    exact Or.inl ⟨by rw [← h.1]; decide, h.2.symm⟩
  rename_i h0 h1 _ _ block
  simp only [MAX_SIZE, not_lt] at h0 h1
  simp only at h
  split at h
  · simp only [Outcome.returned.injEq, Prod.mk.injEq] at h
    exact Or.inl ⟨by rw [← h.1]; decide, h.2.symm⟩
  unfold down at h
  split at h
  · simp [Outcome.bind] at h
  rename_i hl
  simp only [Outcome.bind, Outcome.returned.injEq, Prod.mk.injEq] at h
  obtain ⟨hr, hs⟩ := h
  subst hs
  refine Or.inr ⟨hr.symm, h0, h1, _, rfl, rfl, rfl, ?_⟩
  simp only [up]
  omega

/-- The call `sys_peekLen421` from a state whose semaphore is free. -/
theorem sys_peekLen421_eq (s : State) (hl : 0 < s.queueLock421) :
    sys_peekLen421 s =
      match s.queueHead421 with
      | [] => .returned (-ENODATA, s)
      | tmp :: _ => .returned (toInt tmp.length, s) := by
  obtain ⟨hd, hu⟩ := up_down s hl
  cases s with
  | mk l q n =>
    simp only at hd hu ⊢
    cases q with
    | nil => simp only [sys_peekLen421, hd, Outcome.bind, hu]
    | cons tmp rest => simp only [sys_peekLen421, hd, Outcome.bind, hu]

/-- Every returning call of `sys_peekLen421` was made with the semaphore
free. -/
theorem sys_peekLen421_lock (s s' : State) (r : Int)
    (h : sys_peekLen421 s = .returned (r, s')) : 0 < s.queueLock421 := by
  by_contra hc
  have h0 : s.queueLock421 = 0 := by omega
  simp [sys_peekLen421, down, h0, Outcome.bind] at h

theorem clearLoop_eq (q : List message) (n : Int) :
    clearLoop q n = ([], n - q.length) := by
  induction q generalizing n with
  | nil => simp [clearLoop]
  | cons m q ih =>
    simp only [clearLoop, ih, List.length_cons, Nat.cast_add, Nat.cast_one,
      Prod.mk.injEq, true_and]
    omega

/-- The call `sys_clearQueue421` from a state whose semaphore is free. -/
theorem sys_clearQueue421_eq (s : State) (hl : 0 < s.queueLock421) :
    sys_clearQueue421 s =
      .returned (0, { s with queueHead421 := [],
                             numElements421 := s.numElements421 - s.queueHead421.length }) := by
  obtain ⟨hd, hu⟩ := up_down s hl
  cases s with
  | mk l q n =>
    simp only [up, State.mk.injEq] at hd hu ⊢
    cases q with
    | nil => simp [sys_clearQueue421, hd, Outcome.bind, up, hu.1]
    | cons tmp rest =>
      simp [sys_clearQueue421, hd, Outcome.bind, up, hu.1, clearLoop_eq]

/-- Every returning call of `sys_clearQueue421` was made with the semaphore
free. -/
theorem sys_clearQueue421_lock (s s' : State) (r : Int)
    (h : sys_clearQueue421 s = .returned (r, s')) : 0 < s.queueLock421 := by
  by_contra hc
  have h0 : s.queueLock421 = 0 := by omega
  simp [sys_clearQueue421, down, h0, Outcome.bind] at h

/-- One returning call keeps the counter equal to the number of messages on
the list and every stored length within 0..512. -/
theorem Call.run_preserves (c : Call) (s s' : State) (r : Int)
    (h : c.run s = .returned (r, s'))
    (hi : s.numElements421 = s.queueHead421.length ∧
      ∀ m ∈ s.queueHead421, 0 ≤ m.length ∧ m.length ≤ 512) :
    s'.numElements421 = s'.queueHead421.length ∧
      ∀ m ∈ s'.queueHead421, 0 ≤ m.length ∧ m.length ≤ 512 := by
  obtain ⟨hn, hm⟩ := hi
  cases c with
  | enqueue data len accessOk kmalloc =>
    rcases sys_enqueue421_returned s s' data len accessOk kmalloc r h with
      ⟨_, rfl⟩ | ⟨_, h0, h1, m, hlen, hq, hc, _⟩
    · exact ⟨hn, hm⟩
    · refine ⟨by rw [hc, hq, hn]; simp, ?_⟩
      intro m' hm'
      rw [hq, List.mem_append, List.mem_singleton] at hm'
      rcases hm' with hm' | rfl
      · exact hm m' hm'
      · rw [hlen]; exact ⟨h0, h1⟩
  | dequeue data len accessOk =>
    simp only [Call.run] at h
    cases hd : sys_dequeue421 s data len accessOk with
    | blocked => simp [hd, Outcome.bind] at h
    | undefined => simp [hd, Outcome.bind] at h
    | returned res =>
      simp only [hd, Outcome.bind, Outcome.returned.injEq, Prod.mk.injEq] at h
      obtain ⟨_, hs⟩ := h
      obtain ⟨_, hc⟩ := sys_dequeue421_returned s data len accessOk res hd
      rcases hc with ⟨_, rfl⟩ | ⟨tmp, rest, hq, hc⟩
      · rw [← hs]; exact ⟨hn, hm⟩
      · rcases hc with ⟨_, rfl⟩ | ⟨_, _, rfl⟩ | ⟨_, _, rfl⟩ | ⟨_, _, _, _, rfl⟩ |
          ⟨_, _, _, _, _, rfl⟩ | ⟨_, _, _, _, _, rfl⟩
        all_goals rw [← hs]
        · exact ⟨hn, hm⟩
        · exact ⟨hn, hm⟩
        · exact ⟨hn, hm⟩
        · exact ⟨hn, hm⟩
        · exact ⟨hn, hm⟩
        · refine ⟨?_, ?_⟩
          · simp only [hn, hq, List.length_cons, Nat.cast_add, Nat.cast_one]
            omega
          · intro m' hm'
            exact hm m' (by rw [hq]; exact List.mem_cons_of_mem _ hm')
  | peekLen =>
    simp only [Call.run] at h
    rw [sys_peekLen421_eq s (sys_peekLen421_lock s s' r h)] at h
    split at h
    all_goals
      simp only [Outcome.returned.injEq, Prod.mk.injEq] at h
      rw [← h.2]
      exact ⟨hn, hm⟩
  | queueLen =>
    simp only [Call.run, Outcome.returned.injEq, Prod.mk.injEq] at h
    rw [← h.2]
    exact ⟨hn, hm⟩
  | clearQueue =>
    simp only [Call.run] at h
    rw [sys_clearQueue421_eq s (sys_clearQueue421_lock s s' r h)] at h
    simp only [Outcome.returned.injEq, Prod.mk.injEq] at h
    rw [← h.2]
    simp [hn]

/-- Every sequence of returning calls keeps the counter equal to the number of
messages on the list and every stored length within 0..512. -/
theorem runCalls_preserves (cs : List Call) (s s' : State)
    (h : runCalls s cs = .returned s')
    (hi : s.numElements421 = s.queueHead421.length ∧
      ∀ m ∈ s.queueHead421, 0 ≤ m.length ∧ m.length ≤ 512) :
    s'.numElements421 = s'.queueHead421.length ∧
      ∀ m ∈ s'.queueHead421, 0 ≤ m.length ∧ m.length ≤ 512 := by
  induction cs generalizing s with
  | nil =>
    simp only [runCalls, Outcome.returned.injEq] at h
    rw [← h]; exact hi
  | cons c cs ih =>
    simp only [runCalls] at h
    cases hc : c.run s with
    | blocked => simp [hc, Outcome.bind] at h
    | undefined => simp [hc, Outcome.bind] at h
    | returned res =>
      simp only [hc, Outcome.bind] at h
      exact ih res.2 h (Call.run_preserves c s res.2 res.1 hc hi)

/-- The initial state has the counter equal to the number of messages (0) and
no stored message. -/
theorem init_invariant :
    State.init.numElements421 = State.init.queueHead421.length ∧
      ∀ m ∈ State.init.queueHead421, 0 ≤ m.length ∧ m.length ≤ 512 := by
  simp [State.init]

/-- C11 (counter invariant): in every state reached from the initial state
(empty list, counter 0) by a sequence of calls of `sys_enqueue421`,
`sys_dequeue421`, `sys_peekLen421`, `sys_queueLen421` and `sys_clearQueue421`
with arbitrary arguments and arbitrary outcomes of `access_ok`, `kmalloc` and
the copies, the counter equals the number of messages on the list and is not
negative, so `sys_queueLen421` returns exactly the number of queued
messages. -/
theorem counter_invariant (cs : List Call) (s : State)
    (h : runCalls State.init cs = .returned s) :
    s.numElements421 = s.queueHead421.length ∧ 0 ≤ s.numElements421 ∧
      sys_queueLen421 s = s.queueHead421.length := by
  have hi := (runCalls_preserves cs State.init s h init_invariant).1
  refine ⟨hi, ?_, hi⟩
  rw [hi]
  exact Int.natCast_nonneg _

/-- Witness for C11: two appends, a removal, a failed append, a peek and a
count leave one message and the counter 1. -/
theorem counter_invariant_witness :
    (⟨1, [⟨[119, 111, 114, 108, 100, 33], 6⟩], 1⟩ : State).numElements421
      = ((⟨1, [⟨[119, 111, 114, 108, 100, 33], 6⟩], 1⟩ : State).queueHead421.length : Int) ∧
    0 ≤ (⟨1, [⟨[119, 111, 114, 108, 100, 33], 6⟩], 1⟩ : State).numElements421 ∧
    sys_queueLen421 ⟨1, [⟨[119, 111, 114, 108, 100, 33], 6⟩], 1⟩
      = ((⟨1, [⟨[119, 111, 114, 108, 100, 33], 6⟩], 1⟩ : State).queueHead421.length : Int) :=
  counter_invariant
    [.enqueue [some 104, some 101, some 108, some 108, some 111] 5 true (some []),
     .enqueue [some 119, some 111, some 114, some 108, some 100, some 33] 6 true
        (some []),
     .dequeue [some 0, some 0, some 0, some 0, some 0] 5 true,
     .enqueue [some 1, none] 2 true (some []),
     .peekLen, .queueLen]
    ⟨1, [⟨[119, 111, 114, 108, 100, 33], 6⟩], 1⟩ (by decide)

/-- What `sys_peekLen421` does when the semaphore is free at the call: it
returns -ENODATA on an empty queue and the `length` of the head message on a
non-empty one (for every head whose length fits the `int` of line 153, and so
for the head of every state reached from the initial state); and every call
that returns leaves the globals, list and counter included, exactly as they
were. -/
theorem sys_peekLen421_pure_read (s : State) :
    (0 < s.queueLock421 → s.queueHead421 = [] →
      sys_peekLen421 s = .returned (-ENODATA, s)) ∧
    (∀ m rest, 0 < s.queueLock421 → s.queueHead421 = m :: rest →
      -2 ^ 31 ≤ m.length → m.length < 2 ^ 31 →
      sys_peekLen421 s = .returned (m.length, s)) ∧
    (∀ cs m rest, runCalls State.init cs = .returned s → 0 < s.queueLock421 →
      s.queueHead421 = m :: rest →
      sys_peekLen421 s = .returned (m.length, s)) ∧
    (∀ r s', sys_peekLen421 s = .returned (r, s') → s' = s) := by
  have key : ∀ m rest, 0 < s.queueLock421 → s.queueHead421 = m :: rest →
      -2 ^ 31 ≤ m.length → m.length < 2 ^ 31 →
      sys_peekLen421 s = .returned (m.length, s) := by
    intro m rest hl hq h0 h1
    rw [sys_peekLen421_eq s hl, hq]
    simp only [toInt_eq m.length h0 h1]
  refine ⟨?_, key, ?_, ?_⟩
  · intro hl hq
    rw [sys_peekLen421_eq s hl, hq]
  · intro cs m rest h hl hq
    have hm := (runCalls_preserves cs State.init s h init_invariant).2 m
      (by rw [hq]; exact List.mem_cons_self _ _)
    exact key m rest hl hq (by omega) (by omega)
  · intro r s' h
    rw [sys_peekLen421_eq s (sys_peekLen421_lock s s' r h)] at h
    split at h
    all_goals
      simp only [Outcome.returned.injEq, Prod.mk.injEq] at h
      exact h.2.symm

/-- An instance: with the semaphore free, the peek on the queue holding "hello"
and "world!" returns 5 and changes nothing. -/
theorem sys_peekLen421_pure_read_witness :
    sys_peekLen421
        ⟨1, [⟨[104, 101, 108, 108, 111], 5⟩, ⟨[119, 111, 114, 108, 100, 33], 6⟩], 2⟩
      = .returned (5,
        ⟨1, [⟨[104, 101, 108, 108, 111], 5⟩, ⟨[119, 111, 114, 108, 100, 33], 6⟩], 2⟩) ∧
    sys_peekLen421 State.init = .returned (-ENODATA, State.init) :=
  ⟨(sys_peekLen421_pure_read
      ⟨1, [⟨[104, 101, 108, 108, 111], 5⟩, ⟨[119, 111, 114, 108, 100, 33], 6⟩], 2⟩).2.2.1
      [.enqueue [some 104, some 101, some 108, some 108, some 111] 5 true (some []),
       .enqueue [some 119, some 111, some 114, some 108, some 100, some 33] 6 true
          (some [])]
      ⟨[104, 101, 108, 108, 111], 5⟩ [⟨[119, 111, 114, 108, 100, 33], 6⟩]
      (by decide) (by decide) rfl,
   (sys_peekLen421_pure_read State.init).1 (by decide) rfl⟩

/-- What `sys_clearQueue421` does when the semaphore is free at the call: it
succeeds and empties the queue, and doing it twice is the same as doing it
once.  For every state reached from the initial state,
a call made with the semaphore free returns 0 and leaves the list empty and
`sys_queueLen421` equal to 0; a second call then returns 0 as well and leaves
that same empty state. -/
theorem sys_clearQueue421_idempotent (cs : List Call) (s : State)
    (h : runCalls State.init cs = .returned s) (hl : 0 < s.queueLock421) :
    ∃ s1, sys_clearQueue421 s = .returned (0, s1) ∧
      s1.queueHead421 = [] ∧ sys_queueLen421 s1 = 0 ∧
      s1.queueLock421 = s.queueLock421 ∧
      sys_clearQueue421 s1 = .returned (0, s1) := by
  have hi := (runCalls_preserves cs State.init s h init_invariant).1
  refine ⟨{ s with queueHead421 := [], numElements421 := 0 }, ?_, rfl, rfl, rfl, ?_⟩
  · rw [sys_clearQueue421_eq s hl, hi]
    simp
  · have h2 := sys_clearQueue421_eq
      { s with queueHead421 := [], numElements421 := 0 } hl
    rw [h2]
    simp

/-- An instance: with the semaphore free, clearing the queue that holds "hello"
and "world!". -/
theorem sys_clearQueue421_idempotent_witness :
    ∃ s1,
      sys_clearQueue421
          ⟨1, [⟨[104, 101, 108, 108, 111], 5⟩, ⟨[119, 111, 114, 108, 100, 33], 6⟩], 2⟩
        = .returned (0, s1) ∧
      s1.queueHead421 = [] ∧ sys_queueLen421 s1 = 0 ∧
      s1.queueLock421
        = (⟨1, [⟨[104, 101, 108, 108, 111], 5⟩,
                ⟨[119, 111, 114, 108, 100, 33], 6⟩], 2⟩ : State).queueLock421 ∧
      sys_clearQueue421 s1 = .returned (0, s1) :=
  sys_clearQueue421_idempotent
    [.enqueue [some 104, some 101, some 108, some 108, some 111] 5 true (some []),
     .enqueue [some 119, some 111, some 114, some 108, some 100, some 33] 6 true
        (some [])]
    ⟨1, [⟨[104, 101, 108, 108, 111], 5⟩, ⟨[119, 111, 114, 108, 100, 33], 6⟩], 2⟩
    (by decide) (by decide)

/-- What a fitting `sys_dequeue421` does when the semaphore is free at the
call: it copies the head message and nothing more.  For every non-empty queue whose head has length `h ≥ 0` (the head's
array holding at least `h` bytes), every `len` with `h ≤ len ≤ 512`, a passing
`access_ok` and a destination whose first `h` bytes are writable, a call made
with the semaphore free returns 0; the first `h` bytes of the destination are
the first `h` bytes of the head, every destination byte from offset `h` on is
unchanged, and the list afterwards is the old list without its first message,
the others unchanged and in order, with the counter one less. -/
theorem sys_dequeue421_copies_head (s : State) (m : message)
    (rest : List message) (data : UserMem) (len : Int)
    (hl : 0 < s.queueLock421) (hq : s.queueHead421 = m :: rest)
    (h0 : 0 ≤ m.length) (h1 : m.length ≤ len) (h2 : len ≤ 512)
    (hdata : m.length.toNat ≤ m.data.length)
    (hw : accessible data m.length.toNat = true) :
    ∃ r, sys_dequeue421 s data len true = .returned r ∧ r.ret = 0 ∧
      r.data.take m.length.toNat = (m.data.take m.length.toNat).map some ∧
      r.data.drop m.length.toNat = data.drop m.length.toNat ∧
      r.state.queueHead421 = rest ∧
      r.state.numElements421 = s.numElements421 - 1 ∧
      r.state.queueLock421 = s.queueLock421 := by
  have hp : (m.data.take m.length.toNat).length = m.length.toNat := by
    rw [List.length_take]; omega
  have hv := sys_dequeue421_valid s m rest (m.data.take m.length.toNat) data len
    hl hq (by rw [hp]; omega) (by rw [hp]) (by rw [hp]; omega) h2
    (by rw [hp]; exact hw)
  rw [hp] at hv
  refine ⟨_, hv, rfl, ?_, ?_, rfl, rfl, rfl⟩
  · have hlen : ((m.data.take m.length.toNat).map some).length = m.length.toNat := by
      rw [List.length_map, hp]
    simp only
    rw [List.take_append_of_le_length (by rw [hlen]),
      List.take_of_length_le (by rw [hlen])]
  · have hlen : ((m.data.take m.length.toNat).map some).length = m.length.toNat := by
      rw [List.length_map, hp]
    simp only
    rw [List.drop_append_of_le_length (by rw [hlen]),
      List.drop_of_length_le (by rw [hlen]), List.nil_append]

/-- An instance: with the semaphore free, "hello" is removed into a destination
of eight bytes with `len = 8`; the last three bytes of the destination keep
their value 9. -/
theorem sys_dequeue421_copies_head_witness :
    ∃ r,
      sys_dequeue421
          ⟨1, [⟨[104, 101, 108, 108, 111], 5⟩, ⟨[119, 111, 114, 108, 100, 33], 6⟩], 2⟩
          (List.replicate 8 (some 9)) 8 true = .returned r ∧
      r.ret = 0 ∧
      r.data.take (5 : Int).toNat
        = (([104, 101, 108, 108, 111] : List Byte).take (5 : Int).toNat).map some ∧
      r.data.drop (5 : Int).toNat
        = (List.replicate 8 (some 9) : UserMem).drop (5 : Int).toNat ∧
      r.state.queueHead421 = [⟨[119, 111, 114, 108, 100, 33], 6⟩] ∧
      r.state.numElements421 = 2 - 1 ∧
      r.state.queueLock421 = 1 :=
  sys_dequeue421_copies_head
    ⟨1, [⟨[104, 101, 108, 108, 111], 5⟩, ⟨[119, 111, 114, 108, 100, 33], 6⟩], 2⟩
    ⟨[104, 101, 108, 108, 111], 5⟩ [⟨[119, 111, 114, 108, 100, 33], 6⟩]
    (List.replicate 8 (some 9)) 8 (by decide) rfl (by decide) (by decide)
    (by decide) (by decide) (by decide)

/-- C15: evaluation of the code on the interleaving of the claim.  A caller
of `sys_dequeue421` finds one message queued in its first critical section
and passes the checks of its arguments; before its second `down`, another
caller runs `sys_clearQueue421` (or a complete `sys_dequeue421`) and empties
the queue; the first caller then takes the semaphore and reads the head
(line 118) without testing the list again, which on the empty list is the
list head itself and not a message. -/
theorem sys_dequeue421_no_recheck :
    sys_dequeue421_check ⟨1, [⟨[119, 111, 114, 108, 100, 33], 6⟩], 1⟩
        (List.replicate 6 (some 0)) 6 true
      = .returned (.inr ⟨1, [⟨[119, 111, 114, 108, 100, 33], 6⟩], 1⟩) ∧
    Call.clearQueue.run ⟨1, [⟨[119, 111, 114, 108, 100, 33], 6⟩], 1⟩
      = .returned (0, ⟨1, [], 0⟩) ∧
    sys_dequeue421_take ⟨1, [], 0⟩ (List.replicate 6 (some 0)) 6 = .undefined ∧
    sys_dequeue421_interleaved ⟨1, [⟨[119, 111, 114, 108, 100, 33], 6⟩], 1⟩
        (List.replicate 6 (some 0)) 6 true .clearQueue = .undefined ∧
    sys_dequeue421_interleaved ⟨1, [⟨[119, 111, 114, 108, 100, 33], 6⟩], 1⟩
        (List.replicate 6 (some 0)) 6 true
        (.dequeue (List.replicate 6 (some 0)) 6 true) = .undefined := by
  decide

/-- C16: evaluation of the code at the failing input.  Started with the
semaphore free (count 1) on the queue holding "world!", `sys_enqueue421`,
`sys_peekLen421`, `sys_clearQueue421`, a successful `sys_dequeue421` and a
`sys_dequeue421` whose copy faults all return with the count 1, but
`sys_dequeue421` with `len = 3` returns -E2BIG with the count 0: the semaphore
is still held. -/
theorem sys_dequeue421_toobig_keeps_lock :
    (∃ r, sys_dequeue421 ⟨1, [⟨[119, 111, 114, 108, 100, 33], 6⟩], 1⟩
        [some 0, some 0, some 0] 3 true = .returned r ∧
      r.ret = -E2BIG ∧ r.state.queueLock421 = 0) ∧
    (∃ r, sys_dequeue421 ⟨1, [⟨[119, 111, 114, 108, 100, 33], 6⟩], 1⟩
        [some 0, some 0, some 0, none] 6 true = .returned r ∧
      r.ret = -EFAULT ∧ r.state.queueLock421 = 1) ∧
    (∃ r, sys_dequeue421 ⟨1, [⟨[119, 111, 114, 108, 100, 33], 6⟩], 1⟩
        (List.replicate 6 (some 0)) 6 true = .returned r ∧
      r.ret = 0 ∧ r.state.queueLock421 = 1) ∧
    (∃ r, sys_enqueue421 ⟨1, [⟨[119, 111, 114, 108, 100, 33], 6⟩], 1⟩
        [some 1] 1 true (some []) = .returned r ∧ r.2.queueLock421 = 1) ∧
    (∃ r, sys_peekLen421 ⟨1, [⟨[119, 111, 114, 108, 100, 33], 6⟩], 1⟩
        = .returned r ∧ r.2.queueLock421 = 1) ∧
    (∃ r, sys_clearQueue421 ⟨1, [⟨[119, 111, 114, 108, 100, 33], 6⟩], 1⟩
        = .returned r ∧ r.2.queueLock421 = 1) :=
  ⟨⟨⟨-E2BIG, ⟨0, [⟨[119, 111, 114, 108, 100, 33], 6⟩], 1⟩, [some 0, some 0, some 0]⟩,
      by decide, rfl, rfl⟩,
   ⟨⟨-EFAULT, ⟨1, [⟨[119, 111, 114, 108, 100, 33], 6⟩], 1⟩,
      [some 119, some 111, some 114, none]⟩, by decide, rfl, rfl⟩,
   ⟨⟨0, ⟨1, [], 0⟩,
      [some 119, some 111, some 114, some 108, some 100, some 33]⟩,
      by decide, rfl, rfl⟩,
   ⟨(0, ⟨1, [⟨[119, 111, 114, 108, 100, 33], 6⟩, ⟨[1], 1⟩], 2⟩), by decide, rfl⟩,
   ⟨(6, ⟨1, [⟨[119, 111, 114, 108, 100, 33], 6⟩], 1⟩), by decide, rfl⟩,
   ⟨(0, ⟨1, [], 0⟩), by decide, rfl⟩⟩

/-- Where the semaphore stands after a returning call: at the count it had
before the call, except after the return of `sys_dequeue421` at line 121 (head
longer than `len`), which leaves it one lower. -/
theorem Call.run_lock (c : Call) (s s' : State) (r : Int)
    (h : c.run s = .returned (r, s')) :
    s'.queueLock421 = s.queueLock421 ∨
    (s'.queueLock421 + 1 = s.queueLock421 ∧ r = -E2BIG ∧
      ∃ data len accessOk m rest, c = .dequeue data len accessOk ∧
        s.queueHead421 = m :: rest ∧ len < m.length) := by
  cases c with
  | enqueue data len accessOk kmalloc =>
    rcases sys_enqueue421_returned s s' data len accessOk kmalloc r h with
      ⟨_, rfl⟩ | ⟨_, _, _, _, _, _, _, hk⟩
    · exact Or.inl rfl
    · exact Or.inl hk
  | dequeue data len accessOk =>
    simp only [Call.run] at h
    cases hd : sys_dequeue421 s data len accessOk with
    | blocked => simp [hd, Outcome.bind] at h
    | undefined => simp [hd, Outcome.bind] at h
    | returned res =>
      simp only [hd, Outcome.bind, Outcome.returned.injEq, Prod.mk.injEq] at h
      obtain ⟨hr, hs⟩ := h
      obtain ⟨hl, hc⟩ := sys_dequeue421_returned s data len accessOk res hd
      rcases hc with ⟨_, rfl⟩ | ⟨tmp, rest, hq, hc⟩
      · rw [← hs]; exact Or.inl rfl
      · rcases hc with ⟨_, rfl⟩ | ⟨_, _, rfl⟩ | ⟨_, _, rfl⟩ | ⟨_, _, _, hlt, rfl⟩ |
          ⟨_, _, _, _, _, rfl⟩ | ⟨_, _, _, _, _, rfl⟩
        · rw [← hs]; exact Or.inl rfl
        · rw [← hs]; exact Or.inl rfl
        · rw [← hs]; exact Or.inl rfl
        · right
          rw [← hs, ← hr]
          exact ⟨by simp only; omega, rfl, data, len, accessOk, tmp, rest, rfl, hq, hlt⟩
        · rw [← hs]; exact Or.inl rfl
        · rw [← hs]; exact Or.inl rfl
  | peekLen =>
    simp only [Call.run] at h
    rw [sys_peekLen421_eq s (sys_peekLen421_lock s s' r h)] at h
    split at h
    all_goals
      simp only [Outcome.returned.injEq, Prod.mk.injEq] at h
      rw [← h.2]
      exact Or.inl rfl
  | queueLen =>
    simp only [Call.run, Outcome.returned.injEq, Prod.mk.injEq] at h
    rw [← h.2]
    exact Or.inl rfl
  | clearQueue =>
    simp only [Call.run] at h
    rw [sys_clearQueue421_eq s (sys_clearQueue421_lock s s' r h)] at h
    simp only [Outcome.returned.injEq, Prod.mk.injEq] at h
    rw [← h.2]
    exact Or.inl rfl

/-- C17 (stored-length bound): in every state reached from the initial empty
queue, every message on the list has a length between 0 and 512; hence a
returning `sys_peekLen421` yields either -ENODATA, on the empty queue, or the
head's length, a value in 0..512 and so never negative; and a returning
`sys_dequeue421` asks `copy_to_user` for at most 512 bytes and leaves every
destination byte from the offset of that count on, and so from offset 512 on,
as it was. -/
theorem stored_length_bound (cs : List Call) (s : State)
    (h : runCalls State.init cs = .returned s) :
    (∀ m ∈ s.queueHead421, 0 ≤ m.length ∧ m.length ≤ 512) ∧
    (∀ r s', sys_peekLen421 s = .returned (r, s') →
      (s.queueHead421 = [] ∧ r = -ENODATA) ∨
      (∃ m rest, s.queueHead421 = m :: rest ∧ r = m.length ∧ 0 ≤ r ∧ r ≤ 512)) ∧
    (∀ data len accessOk r, sys_dequeue421 s data len accessOk = .returned r →
      r.data.drop 512 = data.drop 512 ∧
      ∀ m rest, s.queueHead421 = m :: rest →
        toULong m.length ≤ 512 ∧
        r.data.drop (toULong m.length) = data.drop (toULong m.length)) := by
  have hm := (runCalls_preserves cs State.init s h init_invariant).2
  refine ⟨hm, ?_, ?_⟩
  · intro r s' hp
    rw [sys_peekLen421_eq s (sys_peekLen421_lock s s' r hp)] at hp
    split at hp
    · rename_i hq
      simp only [Outcome.returned.injEq, Prod.mk.injEq] at hp
      exact Or.inl ⟨hq, hp.1.symm⟩
    · rename_i tmp rest hq
      simp only [Outcome.returned.injEq, Prod.mk.injEq] at hp
      have hb := hm tmp (by rw [hq]; exact List.mem_cons_self _ _)
      have ht := toInt_eq tmp.length (by omega) (by omega)
      right
      refine ⟨tmp, rest, hq, ?_, ?_, ?_⟩
      · rw [← hp.1, ht]
      · rw [← hp.1, ht]; exact hb.1
      · rw [← hp.1, ht]; exact hb.2
  · intro data len accessOk r hd
    obtain ⟨_, hc⟩ := sys_dequeue421_returned s data len accessOk r hd
    rcases hc with ⟨hq, rfl⟩ | ⟨tmp, rest, hq, hc⟩
    · refine ⟨rfl, ?_⟩
      intro m rest' hq'
      rw [hq] at hq'
      cases hq'
    · have hb := hm tmp (by rw [hq]; exact List.mem_cons_self _ _)
      have hn : toULong tmp.length ≤ 512 := by
        rw [toULong_eq tmp.length hb.1 hb.2]
        omega
      have hframe : ∀ k, toULong tmp.length ≤ k → r.data.drop k = data.drop k := by
        intro k hk
        rcases hc with ⟨_, rfl⟩ | ⟨_, _, rfl⟩ | ⟨_, _, rfl⟩ | ⟨_, _, _, _, rfl⟩ |
          ⟨_, _, _, _, _, rfl⟩ | ⟨_, _, _, _, _, rfl⟩
        · rfl
        · rfl
        · rfl
        · rfl
        · exact copy_to_user_frame data tmp.data _ k hk
        · exact copy_to_user_frame data tmp.data _ k hk
      refine ⟨hframe 512 hn, ?_⟩
      intro m rest' hq'
      rw [hq] at hq'
      obtain ⟨rfl, _⟩ := List.cons.inj hq'
      exact ⟨hn, hframe _ (le_refl _)⟩

/-- Witness for C17: the state after appending "hello" and "world!", and the
length of its head. -/
theorem stored_length_bound_witness :
    runCalls State.init
        [.enqueue [some 104, some 101, some 108, some 108, some 111] 5 true (some []),
         .enqueue [some 119, some 111, some 114, some 108, some 100, some 33] 6 true
            (some [])]
      = .returned
        ⟨1, [⟨[104, 101, 108, 108, 111], 5⟩, ⟨[119, 111, 114, 108, 100, 33], 6⟩], 2⟩ ∧
    (0 ≤ (⟨[104, 101, 108, 108, 111], 5⟩ : message).length ∧
      (⟨[104, 101, 108, 108, 111], 5⟩ : message).length ≤ 512) :=
  ⟨by decide,
   (stored_length_bound
      [.enqueue [some 104, some 101, some 108, some 108, some 111] 5 true (some []),
       .enqueue [some 119, some 111, some 114, some 108, some 100, some 33] 6 true
          (some [])]
      ⟨1, [⟨[104, 101, 108, 108, 111], 5⟩, ⟨[119, 111, 114, 108, 100, 33], 6⟩], 2⟩
      (by decide)).1 ⟨[104, 101, 108, 108, 111], 5⟩ (by decide)⟩

/-! ## Calls made after the return of line 121

The return of `sys_dequeue421` at line 121 leaves the semaphore held.  The
state below is reached from the initial state by two calls: an append of
"world!" and a removal with `len = 3`. -/

/-- C4: evaluation of the code at the failing input.  After
`sys_enqueue421("world!", 6)` and `sys_dequeue421(buf, 3)` (which returns at
line 121 with the semaphore held), a call of `sys_enqueue421` with `len = 1`, a
readable source, a passing `access_ok` and a successful allocation never
returns, instead of returning 0; the error returns are still given in the
claimed order (`len = -1` gives -EINVAL, `len = 513` gives -E2BIG). -/
theorem sys_enqueue421_blocked_after_toobig :
    ∃ s,
      runCalls State.init
          [.enqueue [some 119, some 111, some 114, some 108, some 100, some 33]
              6 true (some []),
           .dequeue [some 0, some 0, some 0] 3 true] = .returned s ∧
      s.queueLock421 = 0 ∧
      sys_enqueue421 s [some 1] 1 true (some []) = .blocked ∧
      sys_enqueue421 s [some 1] (-1) true (some []) = .returned (-EINVAL, s) ∧
      sys_enqueue421 s [some 1] 513 true (some []) = .returned (-E2BIG, s) :=
  ⟨⟨0, [⟨[119, 111, 114, 108, 100, 33], 6⟩], 1⟩,
   by decide, rfl, by decide, by decide, by decide⟩

/-- C12: evaluation of the code at the failing input.  After
`sys_enqueue421("world!", 6)` and `sys_dequeue421(buf, 3)` (which returns at
line 121 with the semaphore held), the queue is not empty and
`sys_peekLen421` never returns, instead of returning the head's length 6. -/
theorem sys_peekLen421_blocked_after_toobig :
    ∃ s,
      runCalls State.init
          [.enqueue [some 119, some 111, some 114, some 108, some 100, some 33]
              6 true (some []),
           .dequeue [some 0, some 0, some 0] 3 true] = .returned s ∧
      s.queueHead421 = [⟨[119, 111, 114, 108, 100, 33], 6⟩] ∧
      sys_peekLen421 s = .blocked :=
  ⟨⟨0, [⟨[119, 111, 114, 108, 100, 33], 6⟩], 1⟩, by decide, rfl, by decide⟩

/-- C13: evaluation of the code at the failing input.  After
`sys_enqueue421("world!", 6)` and `sys_dequeue421(buf, 3)` (which returns at
line 121 with the semaphore held), `sys_clearQueue421` never returns, instead
of returning 0 and emptying the queue; the message stays queued and
`sys_queueLen421` stays 1. -/
theorem sys_clearQueue421_blocked_after_toobig :
    ∃ s,
      runCalls State.init
          [.enqueue [some 119, some 111, some 114, some 108, some 100, some 33]
              6 true (some []),
           .dequeue [some 0, some 0, some 0] 3 true] = .returned s ∧
      sys_clearQueue421 s = .blocked ∧
      Call.clearQueue.run s = .blocked ∧
      sys_queueLen421 s = 1 :=
  ⟨⟨0, [⟨[119, 111, 114, 108, 100, 33], 6⟩], 1⟩,
   by decide, by decide, by decide, rfl⟩

/-- C14: evaluation of the code at the failing input.  After
`sys_enqueue421("world!", 6)` and `sys_dequeue421(buf, 3)` (which returns at
line 121 with the semaphore held), the head has length 6; `sys_dequeue421` with
`len = 8`, a passing `access_ok` and a destination of eight writable bytes
never returns, instead of returning 0 and copying the six bytes. -/
theorem sys_dequeue421_blocked_after_toobig :
    ∃ s,
      runCalls State.init
          [.enqueue [some 119, some 111, some 114, some 108, some 100, some 33]
              6 true (some []),
           .dequeue [some 0, some 0, some 0] 3 true] = .returned s ∧
      s.queueHead421 = [⟨[119, 111, 114, 108, 100, 33], 6⟩] ∧
      accessible (List.replicate 8 (some 9)) 6 = true ∧
      sys_dequeue421 s (List.replicate 8 (some 9)) 8 true = .blocked :=
  ⟨⟨0, [⟨[119, 111, 114, 108, 100, 33], 6⟩], 1⟩,
   by decide, rfl, by decide, by decide⟩

end MessageQueue
